import Mathlib

/-!
Verification of the EdTech news-aggregation repository's content-extraction
pipeline (URL classification, fetch/retry orchestration, content extraction,
metadata extraction, text normalization, and batch coordination).

The repository carries two redundant copies of the pipeline:
- a CommonJS copy (`src/unnamed/part_000`, `require`/`module.exports`),
  embedded below in namespace `Cjs`;
- an ESM copy (second half of `src/src/messenger.js`, `import`/`export`),
  embedded below in namespace `Esm`.

Effectful JavaScript (puppeteer navigation, cheerio queries) is embedded by
passing the ambient world explicitly: every cheerio query result the code can
observe is a field of `Doc`, and the navigation behaviour of each attempt is a
field of `UrlEnv`.  Platform primitives (the WHATWG `URL` parser, JS regex
`replace`, `String.prototype.trim`, `new Date`) are modelled as executable
Lean functions over `List Char` / `String`, documented at their definitions.
-/

set_option autoImplicit false
set_option maxRecDepth 8000
set_option maxHeartbeats 1000000

/-! ## JavaScript string primitives -/

/-- The JS regex `\s` / `String.prototype.trim` whitespace class:
space, tab, line feed, vertical tab, form feed, carriage return, NBSP and the
Unicode space separators, line/paragraph separators, and the BOM. -/
def jsWs (c : Char) : Bool :=
  let n := c.toNat
  n = 0x20 || n = 0x9 || n = 0xA || n = 0xB || n = 0xC || n = 0xD ||
  n = 0xA0 || n = 0x1680 || (0x2000 ≤ n && n ≤ 0x200A) ||
  n = 0x2028 || n = 0x2029 || n = 0x202F || n = 0x205F || n = 0x3000 || n = 0xFEFF

/-- Models `text.replace(/P+/g, " ")` for a character class `P`: every maximal
run of characters satisfying `p` is replaced by a single ASCII space. -/
def collapseRuns (p : Char → Bool) : List Char → List Char
  | [] => []
  | [c] => if p c then [' '] else [c]
  | c :: d :: rest =>
    if p c then
      (if p d then collapseRuns p (d :: rest) else ' ' :: collapseRuns p (d :: rest))
    else c :: collapseRuns p (d :: rest)

/-- Models `text.replace(/(\r\n|\n|\r)/gm, " ")`: each line-break unit
(the two-character CRLF counting as one unit) becomes a single space. -/
def lineBreaksL : List Char → List Char
  | [] => []
  | '\r' :: '\n' :: rest => ' ' :: lineBreaksL rest
  | '\r' :: rest => ' ' :: lineBreaksL rest
  | '\n' :: rest => ' ' :: lineBreaksL rest
  | c :: rest => c :: lineBreaksL rest

/-- The non-breaking-space character. -/
def nbspChar : Char := '\u00A0'

/-- Models `text.replace(/\u00A0/g, " ")` (the NBSP-to-space pass). -/
def replaceNbspL (l : List Char) : List Char :=
  l.map (fun c => if c = nbspChar then ' ' else c)

/-- Drop a trailing run of `jsWs` characters (the trailing half of
`String.prototype.trim`). -/
def trimEndL : List Char → List Char
  | [] => []
  | c :: rest =>
    match trimEndL rest with
    | [] => if jsWs c then [] else [c]
    | t => c :: t

/-- Models `String.prototype.trim`: strip leading and trailing `jsWs`. -/
def jsTrimL (l : List Char) : List Char :=
  trimEndL (l.dropWhile jsWs)

/-- `String.prototype.trim` on `String`. -/
def jsTrim (s : String) : String :=
  String.mk (jsTrimL s.data)

/-- ASCII lower-casing, as performed by a case-insensitive JS regex on the
ASCII path strings matched by the URL classifier. -/
def toLowerStr (s : String) : String :=
  String.mk (s.data.map Char.toLower)

/-- Kernel-friendly `startsWith` on the character lists of two strings. -/
def strStartsWith (s pre : String) : Bool :=
  List.isPrefixOf pre.data s.data

/-- Kernel-friendly `drop` on the character list of a string. -/
def strDrop (s : String) (n : Nat) : String :=
  String.mk (s.data.drop n)

/-! ## The platform URL parser

`isHomepage` calls `new URL(url)` and reads `.pathname`.  We model the WHATWG
parser for the subset exercised here: an `http`/`https` scheme, a non-empty
host, and a literal path (no dot-segment or percent normalization, which none
of the classified URLs use).  Any string failing this shape parses to `none`,
which models the `URL` constructor throwing. -/

structure UrlParts where
  pathname : String
deriving DecidableEq

/-- Models `new URL(url)` restricted to `http(s)://host/path?query#frag`
inputs; `none` models a thrown `TypeError` on malformed input. -/
def parseUrl (url : String) : Option UrlParts :=
  let afterScheme : Option String :=
    if strStartsWith url "https://" then some (strDrop url 8)
    else if strStartsWith url "http://" then some (strDrop url 7)
    else none
  match afterScheme with
  | none => none
  | some r =>
    let chars := r.data
    let host := chars.takeWhile (fun c => c ≠ '/' && c ≠ '?' && c ≠ '#')
    if host.isEmpty then none
    else
      let after := chars.drop host.length
      let path := after.takeWhile (fun c => c ≠ '?' && c ≠ '#')
      some ⟨if path.isEmpty then "/" else String.mk path⟩

/-! ## URL classifier (`isHomepage`)

The function is byte-for-byte identical in both pipeline copies
(`src/unnamed/part_000` lines 9-64 and `src/src/messenger.js` lines 172-227),
so it is embedded once.  Each regex of the source is an anchored,
case-insensitive whole-path pattern, embedded as membership of the
lower-cased path in the corresponding finite language. -/

/-- The `homepagePatterns` regex family: `/^\/$/`,
`/^\/index\.(html|php|asp|jsp)$/i` (similarly `home.`, `default.`,
`welcome.`), `/^\/home\/?$/i`, `/^\/main\/?$/i`. -/
def homepagePatternsHit (path : String) : Bool :=
  let p := toLowerStr path
  p = "/" ||
  ["/index.html", "/index.php", "/index.asp", "/index.jsp",
   "/home.html", "/home.php", "/home.asp", "/home.jsp",
   "/default.html", "/default.php", "/default.asp", "/default.jsp",
   "/welcome.html", "/welcome.php", "/welcome.asp", "/welcome.jsp",
   "/home", "/home/", "/main", "/main/"].contains p

/-- The `nonArticlePatterns` regex family: `/^\/about\/?$/i` and the other
boilerplate segments, each exact or with an optional trailing slash. -/
def nonArticlePatternsHit (path : String) : Bool :=
  let p := toLowerStr path
  ["/about", "/about/", "/contact", "/contact/", "/faq", "/faq/",
   "/help", "/help/", "/support", "/support/", "/terms", "/terms/",
   "/privacy", "/privacy/", "/login", "/login/", "/signup", "/signup/",
   "/register", "/register/", "/account", "/account/"].contains p

/-- `isHomepage(url)`: true when the URL looks like a homepage / index /
non-article page.  A parse failure is caught and yields `false`
("if we can't determine, don't skip"). -/
def isHomepage (url : String) : Bool :=
  match parseUrl url with
  | none => false
  | some u =>
    let path := u.pathname
    if homepagePatternsHit path then true
    else if path = "" || path = "/" then true
    else nonArticlePatternsHit path

/-! ## Parsed-document model

A `Doc` is the queryable view of the rendered page after cheerio's
`load(content)` and the one-time removal of non-content elements
(`script, style, nav, footer, header, aside, ...`): it records exactly the
query results the extraction code observes.  Raw (untrimmed) texts are
stored; the embedded functions apply `trim` where the source does. -/

structure Doc where
  /-- `$(selector).text()` for each content-container selector that matches
  at least one element (`element.length > 0`); absent key = no match. -/
  selects : List (String × String) := []
  /-- `$("p")` per-element text, in document order. -/
  paragraphs : List String := []
  /-- `$("h1, h2, h3, h4, h5, h6")` per-element text (CommonJS copy). -/
  headings : List String := []
  /-- `$("li")` per-element text (CommonJS copy). -/
  listItems : List String := []
  /-- `$("article, section, main, .content, #content")` per-element text with
  nested `p, div` removed (CommonJS copy). -/
  otherContent : List String := []
  /-- `$("body").text()`. -/
  bodyText : String := ""
  /-- `$("title").text()`. -/
  titleText : String := ""
  /-- `$("h1").first().text()`. -/
  h1First : String := ""
  /-- For each date selector that matches, the resolved raw string the code
  reads from it (`content` attr for metas, `datetime` attr for `time`,
  element text for class-based containers); absent key = no match. -/
  dateValues : List (String × String) := []

/-- `$("title").text() || $("h1").first().text() || ""` (both copies). -/
def pageTitle (doc : Doc) : String :=
  if doc.titleText ≠ "" then doc.titleText
  else if doc.h1First ≠ "" then doc.h1First
  else ""

/-! ## Fetch orchestration model

`scrapeContent` races `page.goto` against a 30s timer inside a
3-attempt loop with a 2s sleep between attempts.  The behaviour of each
`page.goto` call is a `NavBehavior`; racing it against the timer yields an
`AttemptOutcome`.  Both a navigation rejection and a timer win are caught by
the `catch (navigationError)` block, i.e. both are failed attempts, never
crashes. -/

/-- An HTTP response descriptor (`response.status()`). -/
structure HttpResp where
  status : Nat
deriving DecidableEq

/-- How one `page.goto(url, { waitUntil: "domcontentloaded" })` call behaves:
it can resolve after some time (possibly with a `null` response), reject
after some time, or never settle. -/
inductive NavBehavior where
  | resolves (durationMs : Nat) (resp : Option HttpResp)
  | rejects (durationMs : Nat)
  | hangs
deriving DecidableEq

/-- Outcome of `Promise.race([page.goto(...), timer])` for one attempt. -/
inductive AttemptOutcome where
  | success (resp : Option HttpResp)
  | navError
  | timerTimeout
deriving DecidableEq

/-- `true` exactly on the `success` outcome. -/
def AttemptOutcome.isSuccess : AttemptOutcome → Bool
  | .success _ => true
  | _ => false

/-- The race: whichever settles strictly before the timer wins; otherwise the
timer's rejection is taken. -/
def raceAttempt (b : NavBehavior) (timerMs : Nat) : AttemptOutcome :=
  match b with
  | .resolves d r => if d < timerMs then .success r else .timerTimeout
  | .rejects d => if d < timerMs then .navError else .timerTimeout
  | .hangs => .timerTimeout

/-- How the `while (!response && attempts < maxAttempts)` loop ends. -/
inductive NavExit where
  | gotResponse (resp : Option HttpResp)
  | returnedEmpty
  | exhausted
deriving DecidableEq

/-- Events observable from one `scrapeContent` invocation. -/
inductive FetchEvent where
  | launch
  | navAttempt (attempt : Nat) (timerMs : Nat)
  | sleep (ms : Nat)
  | close
deriving DecidableEq

/-- `const navigationTimeout = 30000` (both copies). -/
def navigationTimeout : Nat := 30000

/-- `const maxAttempts = 3` (both copies). -/
def maxAttempts : Nat := 3

/-- The navigation retry loop, identical in both copies:
`attempts++`; race `page.goto` against the 30s timer; `break` on a settled
navigation; on a caught failure return the empty result once
`attempts >= maxAttempts`, else sleep 2s and retry.  The fuel argument is
`maxAttempts - attempts`, so the `exhausted` case (loop guard going false
with no response) is the fuel-0 case. -/
def navLoop (nav : Nat → NavBehavior) : Nat → Nat → NavExit × List FetchEvent
  | _attempts, 0 => (.exhausted, [])
  | attempts, fuel + 1 =>
    let a := attempts + 1
    let ev := FetchEvent.navAttempt a navigationTimeout
    match raceAttempt (nav a) navigationTimeout with
    | .success r => (.gotResponse r, [ev])
    | _ =>
      if maxAttempts ≤ a then (.returnedEmpty, [ev])
      else
        let rest := navLoop nav a fuel
        (rest.1, ev :: FetchEvent.sleep 2000 :: rest.2)

/-- The per-URL world a `scrapeContent` call runs in. -/
structure UrlEnv where
  /-- `puppeteer.launch` succeeds (a launch failure throws, is caught by the
  outer `catch`, and leaves `browser` null). -/
  launchOk : Bool := true
  /-- Behaviour of the n-th `page.goto` call (1-indexed). -/
  nav : Nat → NavBehavior := fun _ => NavBehavior.hangs
  /-- The rendered document as parsed by cheerio. -/
  doc : Doc := {}
  /-- An error thrown between obtaining the page content and returning
  (caught by the outer `catch`, which returns the empty result). -/
  pageThrows : Bool := false

/-- The object `scrapeContent` resolves with.  The ESM copy adds a `title`
field on its success path; elsewhere the field is absent (`none`). -/
structure ScrapeResult where
  content : String
  publishedDate : Option String
  title : Option String
deriving DecidableEq

/-- `{ content: "", publishedDate: null }`. -/
def emptyResult : ScrapeResult :=
  { content := "", publishedDate := none, title := none }

/-- The `finally { if (browser) await browser.close(); }` discipline: once the
browser is launched, every return path carries exactly one trailing `close`
event. -/
def withSession (navEvents : List FetchEvent) (r : ScrapeResult) :
    ScrapeResult × List FetchEvent :=
  (r, FetchEvent.launch :: navEvents ++ [FetchEvent.close])

/-- An input search-result record (`{ url, title, date? }`). -/
structure SearchResult where
  url : String
  title : String
  date : Option String := none
deriving DecidableEq

/-- An output article record pushed by `scrapeMultipleUrls`. -/
structure ScrapedArticle where
  url : String
  title : String
  content : String
  publishedDate : Option String
deriving DecidableEq

/-- Events observable from one `scrapeMultipleUrls` invocation. -/
inductive BatchEvent where
  | process (url : String)
  | delay (ms : Nat)
deriving DecidableEq

/-- JS `a || b` on an optional string slot, where both `undefined` and the
empty string are falsy. -/
def jsOrOpt (a b : Option String) : Option String :=
  match a with
  | some s => if s = "" then b else some s
  | none => b

/-! ## CommonJS pipeline copy (`src/unnamed/part_000`) -/

namespace Cjs

/-- `cleanContent(text)` (lines 340-346): replace line breaks with spaces,
collapse `\s+` runs to single spaces, replace NBSP with space, trim. -/
def cleanContent (text : String) : String :=
  String.mk (jsTrimL (replaceNbspL (collapseRuns jsWs (lineBreaksL text.data))))

/-- `new Date(dateStr); date.toISOString().split("T")[0]`, modelled for the
platform `Date`: an ISO `YYYY-MM-DD` date, bare or followed by a `T...` UTC
time, yields its calendar-date part; every other string is treated as
unparseable (the `catch` branch / an Invalid Date), yielding `none`.
Month/day range checks and timezone-offset day shifts are not modelled. -/
def jsDateToIso (s : String) : Option String :=
  match s.data with
  | y1 :: y2 :: y3 :: y4 :: '-' :: m1 :: m2 :: '-' :: d1 :: d2 :: rest =>
    if [y1, y2, y3, y4, m1, m2, d1, d2].all Char.isDigit &&
        (rest.isEmpty || rest.head? = some 'T') then
      some (String.mk [y1, y2, y3, y4, '-', m1, m2, '-', d1, d2])
    else none
  | _ => none

/-- JS truthiness of the `dateStr` slot (`undefined` and `""` are falsy). -/
def truthy : Option String → Bool
  | some s => s ≠ ""
  | none => false

/-- `extractPublicationDate($)` (lines 307-333): an `||` chain over four meta
tags, then the first `time[datetime]` element, then normalization of the found
string to `YYYY-MM-DD` (`null` when parsing fails or nothing was found). -/
def extractPublicationDate (doc : Doc) : Option String :=
  let metas :=
    jsOrOpt (List.lookup "meta[property=\"article:published_time\"]" doc.dateValues)
      (jsOrOpt (List.lookup "meta[name=\"pubdate\"]" doc.dateValues)
        (jsOrOpt (List.lookup "meta[name=\"publication_date\"]" doc.dateValues)
          (List.lookup "meta[name=\"date\"]" doc.dateValues)))
  let dateStr :=
    if truthy metas then metas
    else
      match List.lookup "time[datetime]" doc.dateValues with
      | some v => some v
      | none => metas
  match dateStr with
  | some s => if s ≠ "" then jsDateToIso s else none
  | none => none

/-- `articleSelectors` (lines 204-220). -/
def articleSelectors : List String :=
  ["article", ".article", ".post", ".entry", ".content", "#content",
   ".article-content", ".post-content", ".entry-content", "main",
   "[role=\x27main\x27]", ".main-content", "#main-content",
   ".body-content", "#body-content"]

/-- The container loop (lines 222-234): `mainContent` is reassigned to the
trimmed text of every matching selector in order, breaking only when the text
exceeds 500 characters; with no break, the last match's text remains. -/
def mainContentLoop (doc : Doc) : List String → String → String
  | [], acc => acc
  | sel :: rest, acc =>
    match List.lookup sel doc.selects with
    | some raw =>
      let t := jsTrim raw
      if 500 < t.length then t else mainContentLoop doc rest t
    | none => mainContentLoop doc rest acc

/-- `allText` before the body-text fallback (lines 236-276): the title plus
the main container when it exceeds 500 characters, else the comprehensive
concatenation `title headings paragraphs listItems otherContent` (each group
space-joined from per-element trimmed texts). -/
def allTextRaw (doc : Doc) : String :=
  let title := pageTitle doc
  let mainContent := mainContentLoop doc articleSelectors ""
  if 500 < mainContent.length then title ++ " " ++ mainContent
  else
    let headingText := String.intercalate " " (doc.headings.map jsTrim)
    let paragraphText := String.intercalate " " (doc.paragraphs.map jsTrim)
    let listText := String.intercalate " " (doc.listItems.map jsTrim)
    let otherContentText := String.intercalate " " (doc.otherContent.map jsTrim)
    title ++ " " ++ headingText ++ " " ++ paragraphText ++ " " ++ listText ++
      " " ++ otherContentText

/-- Lines 278-281: fall back to `$("body").text().trim()` when `allText` is
falsy or its trimmed length is below 50. -/
def allText (doc : Doc) : String :=
  let a := allTextRaw doc
  if a = "" || (jsTrim a).length < 50 then jsTrim doc.bodyText else a

/-- `scrapeContent(url)` (lines 71-300).  Returns the resolved object plus
the session-event trace.  Unrepresented steps (request interception,
user-agent, the caught best-effort `waitForSelector`) do not affect the
result.  Note: this copy applies no minimum-length floor to the cleaned
text. -/
def scrapeContent (env : UrlEnv) (url : String) : ScrapeResult × List FetchEvent :=
  if isHomepage url then (emptyResult, [])
  else if env.launchOk = false then (emptyResult, [])
  else
    match navLoop env.nav 0 maxAttempts with
    | (NavExit.returnedEmpty, tr) => withSession tr emptyResult
    | (NavExit.exhausted, tr) => withSession tr emptyResult
    | (NavExit.gotResponse none, tr) => withSession tr emptyResult
    | (NavExit.gotResponse (some resp), tr) =>
      if resp.status ≠ 200 then withSession tr emptyResult
      else if env.pageThrows then withSession tr emptyResult
      else
        withSession tr
          { content := cleanContent (allText env.doc),
            publishedDate := extractPublicationDate env.doc, title := none }

/-- `scrapeMultipleUrls(searchResults)` (lines 353-385): skip homepages,
scrape, push `{ ...result, content, publishedDate }` only when `content` is
truthy; per-URL errors are caught and only skip that URL.  This copy has no
inter-request delay. -/
def scrapeMultipleUrls (env : String → UrlEnv) :
    List SearchResult → List ScrapedArticle × List BatchEvent
  | [] => ([], [])
  | r :: rest =>
    let tail := scrapeMultipleUrls env rest
    if isHomepage r.url then (tail.1, BatchEvent.process r.url :: tail.2)
    else
      let sc := (scrapeContent (env r.url) r.url).1
      if sc.content ≠ "" then
        ({ url := r.url, title := r.title, content := sc.content,
           publishedDate := sc.publishedDate } :: tail.1,
         BatchEvent.process r.url :: tail.2)
      else (tail.1, BatchEvent.process r.url :: tail.2)

end Cjs

/-! ## ESM pipeline copy (`src/src/messenger.js`, scraper half) -/

namespace Esm

/-- `cleanContent(text)` (lines 489-497): empty-input guard, collapse `\s+`
runs, then the (then vacuous) `\n+` and `\t+` passes, then trim. -/
def cleanContent (text : String) : String :=
  if text = "" then ""
  else
    String.mk (jsTrimL
      (collapseRuns (fun c => c = '\t')
        (collapseRuns (fun c => c = '\n')
          (collapseRuns jsWs text.data))))

/-- `dateSelectors` (lines 457-468), probed in this fixed order. -/
def dateSelectors : List String :=
  ["meta[property=\"article:published_time\"]",
   "meta[name=\"publish_date\"]",
   "meta[name=\"date\"]",
   "meta[name=\"pubdate\"]",
   "meta[name=\"publication_date\"]",
   "time[datetime]",
   ".date", ".published", ".pubdate", ".timestamp"]

/-- The probe loop of `extractPublicationDate` (lines 470-479): for each
selector with a match, read `content` / `datetime` / text; a falsy (empty)
value falls through to the next selector; the first truthy value is returned
trimmed. -/
def datesLoop (doc : Doc) : List String → Option String
  | [] => none
  | sel :: rest =>
    match List.lookup sel doc.dateValues with
    | some v => if v ≠ "" then some (jsTrim v) else datesLoop doc rest
    | none => datesLoop doc rest

/-- `extractPublicationDate($)` (lines 455-482): first non-empty probe value,
trimmed; `null` when nothing matches. -/
def extractPublicationDate (doc : Doc) : Option String :=
  datesLoop doc dateSelectors

/-- `contentSelectors` (lines 382-393). -/
def contentSelectors : List String :=
  ["article", ".article", ".content", "#content", "main",
   ".post", ".entry", ".story", ".text", ".body"]

/-- The container loop (lines 396-406): take the first selector in listed
order whose matched trimmed text exceeds 200 characters; otherwise
`extractedText` stays `""`. -/
def findContainerText (doc : Doc) : List String → String
  | [] => ""
  | sel :: rest =>
    match List.lookup sel doc.selects with
    | some raw =>
      let t := jsTrim raw
      if 200 < t.length then t else findContainerText doc rest
    | none => findContainerText doc rest

/-- The extraction chain (lines 396-420): container strategy, then
space-joined paragraph text when the container result is falsy or under 200
characters, then whole-body text when still falsy or under 100 characters. -/
def extractText (doc : Doc) : String :=
  let extractedText := findContainerText doc contentSelectors
  let extractedText :=
    if extractedText = "" || extractedText.length < 200 then
      jsTrim (String.intercalate " " (doc.paragraphs.map jsTrim))
    else extractedText
  if extractedText = "" || extractedText.length < 100 then jsTrim doc.bodyText
  else extractedText

/-- `scrapeContent(url)` (lines 234-448).  Unlike the CommonJS copy, the
cleaned text must reach 100 characters ("Insufficient content") or the
empty result is returned, and the success object carries a `title` field. -/
def scrapeContent (env : UrlEnv) (url : String) : ScrapeResult × List FetchEvent :=
  if isHomepage url then (emptyResult, [])
  else if env.launchOk = false then (emptyResult, [])
  else
    match navLoop env.nav 0 maxAttempts with
    | (NavExit.returnedEmpty, tr) => withSession tr emptyResult
    | (NavExit.exhausted, tr) => withSession tr emptyResult
    | (NavExit.gotResponse none, tr) => withSession tr emptyResult
    | (NavExit.gotResponse (some resp), tr) =>
      if resp.status ≠ 200 then withSession tr emptyResult
      else if env.pageThrows then withSession tr emptyResult
      else if cleanContent (extractText env.doc) = "" ||
          (cleanContent (extractText env.doc)).length < 100 then
        withSession tr emptyResult
      else
        withSession tr
          { content := cleanContent (extractText env.doc),
            publishedDate := extractPublicationDate env.doc,
            title := some (pageTitle env.doc) }

/-- `scrapeMultipleUrls(searchResults)` (lines 504-533): scrape each result
(`scrapeContent` itself skips homepages), push
`{ title, url, content, publishedDate: scraped || result.date }` only when
`content` is truthy, catch per-URL errors, and sleep 1s after each URL. -/
def scrapeMultipleUrls (env : String → UrlEnv) :
    List SearchResult → List ScrapedArticle × List BatchEvent
  | [] => ([], [])
  | r :: rest =>
    let sc := (scrapeContent (env r.url) r.url).1
    let tail := scrapeMultipleUrls env rest
    let evs := BatchEvent.process r.url :: BatchEvent.delay 1000 :: tail.2
    if sc.content ≠ "" then
      ({ url := r.url, title := r.title, content := sc.content,
         publishedDate := jsOrOpt sc.publishedDate r.date } :: tail.1, evs)
    else (tail.1, evs)

end Esm

/-! ## Normal forms of the text normalizer

`NormalizedData l` says `l` is fully normalized prose: its only whitespace
character is the ASCII space, no two adjacent characters are whitespace, and
it neither starts nor ends with whitespace.  Both `cleanContent` copies
produce such data, and both are the identity on it — which yields
idempotence. -/

/-- Every whitespace character of `l` is the ASCII space. -/
def wsSpacesL (l : List Char) : Bool :=
  l.all (fun c => !jsWs c || c = ' ')

/-- No two adjacent characters of `l` are both whitespace. -/
def noAdjWsL : List Char → Bool
  | c :: d :: rest => (!(jsWs c && jsWs d)) && noAdjWsL (d :: rest)
  | _ => true

/-- `l` does not start with whitespace. -/
def frontOkL : List Char → Bool
  | [] => true
  | c :: _ => !jsWs c

/-- `l` does not end with whitespace. -/
def backOkL : List Char → Bool
  | [] => true
  | [c] => !jsWs c
  | _ :: d :: rest => backOkL (d :: rest)

/-- Fully normalized character data. -/
def NormalizedData (l : List Char) : Prop :=
  wsSpacesL l = true ∧ noAdjWsL l = true ∧ frontOkL l = true ∧ backOkL l = true

/-! ## Batch-coordinator characterization -/

/-- The per-URL emission decision of the ESM coordinator: the article pushed
for `r`, or `none` when the URL contributes nothing. -/
def Esm.emit (env : String → UrlEnv) (r : SearchResult) : Option ScrapedArticle :=
  let sc := (Esm.scrapeContent (env r.url) r.url).1
  if sc.content ≠ "" then
    some { url := r.url, title := r.title, content := sc.content,
           publishedDate := jsOrOpt sc.publishedDate r.date }
  else none

/-- The per-URL emission decision of the CommonJS coordinator. -/
def Cjs.emit (env : String → UrlEnv) (r : SearchResult) : Option ScrapedArticle :=
  if isHomepage r.url then none
  else
    let sc := (Cjs.scrapeContent (env r.url) r.url).1
    if sc.content ≠ "" then
      some { url := r.url, title := r.title, content := sc.content,
             publishedDate := sc.publishedDate }
    else none

/-! ## Concrete documents, environments and batches used by the claims -/

/-- A per-URL world in which everything succeeds: the browser launches, the
first navigation attempt resolves immediately with HTTP 200, and the page
parses to `doc`. -/
def okEnv (doc : Doc) : UrlEnv :=
  { launchOk := true, nav := fun _ => NavBehavior.resolves 0 (some ⟨200⟩),
    doc := doc, pageThrows := false }

/-- A per-URL world whose navigation never settles (every attempt loses the
race against the 30s timer). -/
def hangEnv : UrlEnv := {}

/-- An article-like URL, skipped by no classifier pattern. -/
def articleUrl : String := "https://example.com/2025/06/19/article-slug/"

/-- 250 characters of container text. -/
def c250 : String := String.mk (List.replicate 250 'c')

/-- 50 characters of paragraph text. -/
def p50 : String := String.mk (List.replicate 50 'p')

/-- A document whose only content container holds 250 characters and whose
paragraphs total 50 characters (the spec's precision-over-recall document). -/
def doc250 : Doc := { selects := [("article", c250)], paragraphs := [p50] }

/-- 60 characters of body text. -/
def b60 : String := String.mk (List.replicate 60 'y')

/-- A document whose extraction yields only 60 characters (everything empty
except the body text). -/
def docShort : Doc := { bodyText := b60 }

/-- A search result pointing at `docShort`. -/
def rShort : SearchResult := { url := "https://ex.com/2025/06/19/short/", title := "Short" }

/-- 210 characters of text, variant a. -/
def bigA : String := String.mk (List.replicate 210 'a')

/-- 210 characters of text, variant b. -/
def bigB : String := String.mk (List.replicate 210 'b')

/-- A document with a 210-character article container and the same text as its
single paragraph (so both pipeline copies extract `bigA`). -/
def docA : Doc := { selects := [("article", bigA)], paragraphs := [bigA] }

/-- As `docA`, with text `bigB`. -/
def docB : Doc := { selects := [("article", bigB)], paragraphs := [bigB] }

/-- The spec's 5-URL batch: two skippable URLs, one URL whose navigation
fails permanently, two URLs that succeed. -/
def r1 : SearchResult := { url := "https://ex.com/home/", title := "Skip one" }

def r2 : SearchResult := { url := "https://ex.com/2025/06/19/first-article/", title := "First" }

def r3 : SearchResult := { url := "https://ex.com/about", title := "Skip two" }

def r4 : SearchResult := { url := "https://ex.com/2025/06/19/broken-article/", title := "Broken" }

def r5 : SearchResult := { url := "https://ex.com/2025/06/19/second-article/", title := "Second" }

def batch5 : List SearchResult := [r1, r2, r3, r4, r5]

/-- The world for `batch5`: `r2` and `r5` render `docA` / `docB`; every other
URL hangs on navigation. -/
def env5 : String → UrlEnv := fun u =>
  if u = r2.url then okEnv docA
  else if u = r5.url then okEnv docB
  else hangEnv

/-- The article emitted for `r2`. -/
def art2 : ScrapedArticle :=
  { url := r2.url, title := r2.title, content := bigA, publishedDate := none }

/-- The article emitted for `r5`. -/
def art5 : ScrapedArticle :=
  { url := r5.url, title := r5.title, content := bigB, publishedDate := none }

/-- The nav-exhaustion trace: three 30s-raced attempts, 2s sleeps between,
inside one launch/close session. -/
def failTrace : List FetchEvent :=
  [FetchEvent.launch,
   FetchEvent.navAttempt 1 navigationTimeout, FetchEvent.sleep 2000,
   FetchEvent.navAttempt 2 navigationTimeout, FetchEvent.sleep 2000,
   FetchEvent.navAttempt 3 navigationTimeout, FetchEvent.close]

/-- 150 characters of container text below the 200 threshold. -/
def s150 : String := String.mk (List.replicate 150 's')

/-- 150 characters of paragraph text. -/
def p150 : String := String.mk (List.replicate 150 'p')

/-- 149 characters of paragraph text. -/
def q149 : String := String.mk (List.replicate 149 'q')

/-- A document where no container exceeds 200 characters but the paragraphs
total 300 characters once space-joined. -/
def docPara : Doc := { selects := [("article", s150)], paragraphs := [p150, q149] }

/-- 20 characters of paragraph text. -/
def t20 : String := String.mk (List.replicate 20 't')

/-- 120 characters of body text. -/
def b120 : String := String.mk (List.replicate 120 'z')

/-- A document whose container and paragraph strategies stay under 100
characters, leaving only the body text. -/
def docBodyOnly : Doc := { paragraphs := [t20], bodyText := b120 }

/-- 201 characters, the first listed container. -/
def a201 : String := String.mk (List.replicate 201 'o')

/-- 300 characters, a later listed container. -/
def big300 : String := String.mk (List.replicate 300 'q')

/-- A document with two qualifying containers, to exhibit listed-order
acceptance. -/
def docOrder : Doc := { selects := [("article", a201), (".article", big300)] }

/-- A document carrying only `meta[property="article:published_time"]`
with content `"2025-06-19T10:00:00Z"`. -/
def docPubTime : Doc :=
  { dateValues := [("meta[property=\"article:published_time\"]",
      "2025-06-19T10:00:00Z")] }

/-- A document with both a `publish_date` meta tag and a `.date` container,
to exhibit probe order. -/
def docPrio : Doc :=
  { dateValues := [(".date", "from-dot-date"),
      ("meta[name=\"publish_date\"]", "from-publish-date")] }

/-- A document whose `time[datetime]` value carries surrounding whitespace. -/
def docTimeTrim : Doc :=
  { dateValues := [("time[datetime]", "  2025-06-19  ")] }

/-- A document whose only date source is a `.date` class container. -/
def docDotDate : Doc := { dateValues := [(".date", "June 19, 2025")] }

/-- 510 characters of container text, above the CommonJS 500 threshold. -/
def t510 : String := String.mk (List.replicate 510 'z')

/-- A document with a non-empty title element and a qualifying container. -/
def docTitled : Doc :=
  { titleText := "EdTech Daily News", selects := [("article", t510)] }

/-! ## Lemmas -/

theorem mem_collapseRuns (p : Char → Bool) :
    ∀ l : List Char, ∀ c ∈ collapseRuns p l, c = ' ' ∨ (c ∈ l ∧ p c = false) := by
  intro l
  induction l with
  | nil => simp [collapseRuns]
  | cons a tl ih =>
    cases tl with
    | nil =>
      intro c hc
      by_cases hp : p a <;> simp [collapseRuns, hp] at hc <;> simp [hc, hp]
    | cons b tl2 =>
      intro c hc
      simp only [collapseRuns] at hc
      by_cases hpa : p a
      · by_cases hpb : p b
        · simp only [hpa, hpb, if_pos] at hc
          rcases ih c hc with h | ⟨h1, h2⟩
          · exact Or.inl h
          · exact Or.inr ⟨List.mem_cons_of_mem a h1, h2⟩
        · simp only [hpa, hpb, if_pos, if_neg, Bool.false_eq_true, not_false_iff] at hc
          rcases List.mem_cons.mp hc with h | h
          · exact Or.inl h
          · rcases ih c h with h2 | ⟨h3, h4⟩
            · exact Or.inl h2
            · exact Or.inr ⟨List.mem_cons_of_mem a h3, h4⟩
      · simp only [hpa, if_neg, Bool.false_eq_true, not_false_iff] at hc
        rcases List.mem_cons.mp hc with h | h
        · exact Or.inr ⟨by simp [h], by simp [h, hpa]⟩
        · rcases ih c h with h2 | ⟨h3, h4⟩
          · exact Or.inl h2
          · exact Or.inr ⟨List.mem_cons_of_mem a h3, h4⟩

theorem head_collapseRuns (p : Char → Bool) :
    ∀ (tl : List Char) (d : Char),
      (collapseRuns p (d :: tl)).head? = some (if p d then ' ' else d) := by
  intro tl
  induction tl with
  | nil => intro d; by_cases hp : p d <;> simp [collapseRuns, hp]
  | cons e tl2 ih =>
    intro d
    by_cases hpd : p d
    · by_cases hpe : p e
      · simpa [collapseRuns, hpd, hpe] using (ih e).trans (by simp [hpe])
      · simp [collapseRuns, hpd, hpe]
    · simp [collapseRuns, hpd]

theorem noAdjWsL_cons {c : Char} {l : List Char} :
    noAdjWsL (c :: l) = true ↔
      noAdjWsL l = true ∧ ∀ d, l.head? = some d → (jsWs c && jsWs d) = false := by
  cases l with
  | nil => simp [noAdjWsL]
  | cons d tl =>
    constructor
    · intro h
      simp only [noAdjWsL, Bool.and_eq_true, Bool.not_eq_true'] at h
      exact ⟨h.2, by intro e he; simp at he; subst he; exact h.1⟩
    · intro ⟨h1, h2⟩
      simp only [noAdjWsL, Bool.and_eq_true, Bool.not_eq_true']
      exact ⟨h2 d rfl, h1⟩

theorem wsSpaces_collapseRuns (l : List Char) :
    wsSpacesL (collapseRuns jsWs l) = true := by
  rw [wsSpacesL, List.all_eq_true]
  intro c hc
  rcases mem_collapseRuns jsWs l c hc with h | ⟨_, h2⟩
  · simp [h]
  · simp [h2]

theorem noAdj_collapseRuns : ∀ l : List Char, noAdjWsL (collapseRuns jsWs l) = true := by
  have key : ∀ (tl : List Char) (d : Char), noAdjWsL (collapseRuns jsWs (d :: tl)) = true := by
    intro tl
    induction tl with
    | nil =>
      intro d
      by_cases hp : jsWs d <;> simp [collapseRuns, hp, noAdjWsL]
    | cons e tl2 ih =>
      intro d
      by_cases hpd : jsWs d
      · by_cases hpe : jsWs e
        · simpa [collapseRuns, hpd, hpe] using ih e
        · simp only [collapseRuns, hpd, hpe, if_pos, if_neg, Bool.false_eq_true,
            not_false_iff]
          rw [noAdjWsL_cons]
          refine ⟨ih e, ?_⟩
          intro f hf
          rw [head_collapseRuns] at hf
          simp [hpe] at hf
          subst hf
          simp [hpe]
      · simp only [collapseRuns, hpd, if_neg, Bool.false_eq_true, not_false_iff]
        rw [noAdjWsL_cons]
        refine ⟨ih e, ?_⟩
        intro f hf
        rw [head_collapseRuns] at hf
        simp only [Option.some.injEq] at hf
        subst hf
        by_cases hpe : jsWs e
        · simp [hpe, hpd]
        · simp [hpe, hpd]
  intro l
  cases l with
  | nil => simp [collapseRuns, noAdjWsL]
  | cons d tl => exact key tl d

theorem collapseRuns_id_of_none (p : Char → Bool) :
    ∀ l : List Char, (∀ c ∈ l, p c = false) → collapseRuns p l = l := by
  intro l
  induction l with
  | nil => intro; rfl
  | cons a tl ih =>
    intro h
    have ha : p a = false := h a (List.mem_cons_self a tl)
    cases tl with
    | nil => simp [collapseRuns, ha]
    | cons b tl2 =>
      have hrest : ∀ c ∈ b :: tl2, p c = false := fun c hc => h c (List.mem_cons_of_mem a hc)
      simp [collapseRuns, ha, ih hrest]

theorem collapseRuns_id_of_clean :
    ∀ l : List Char, wsSpacesL l = true → noAdjWsL l = true →
      collapseRuns jsWs l = l := by
  intro l
  induction l with
  | nil => intro _ _; rfl
  | cons a tl ih =>
    intro hws hadj
    have hwsa : jsWs a = false ∨ a = ' ' := by
      have := (List.all_eq_true.mp hws) a (List.mem_cons_self a tl)
      simpa [Bool.or_eq_true, Bool.not_eq_true'] using this
    have hwstl : wsSpacesL tl = true := by
      rw [wsSpacesL, List.all_eq_true]
      intro c hc
      exact (List.all_eq_true.mp hws) c (List.mem_cons_of_mem a hc)
    cases tl with
    | nil =>
      rcases hwsa with h | h
      · simp [collapseRuns, h]
      · subst h; simp [collapseRuns]
    | cons b tl2 =>
      have hadjtl : noAdjWsL (b :: tl2) = true := (noAdjWsL_cons.mp hadj).1
      by_cases hja : jsWs a
      · have hb : (jsWs a && jsWs b) = false := (noAdjWsL_cons.mp hadj).2 b rfl
        have hjb : jsWs b = false := by
          rcases Bool.and_eq_false_iff.mp hb with h | h
          · exact absurd h (by simp [hja])
          · exact h
        have ha : a = ' ' := by
          rcases hwsa with h | h
          · exact absurd hja (by simp [h])
          · exact h
        subst ha
        simp [collapseRuns, hja, hjb, ih hwstl hadjtl]
      · simp [collapseRuns, hja, ih hwstl hadjtl]

theorem lineBreaksL_cons_ne (c : Char) (rest : List Char) (hn : c ≠ '\n') (hr : c ≠ '\r') :
    lineBreaksL (c :: rest) = c :: lineBreaksL rest := by
  rw [lineBreaksL.eq_def]
  split <;> simp_all

theorem lineBreaksL_id :
    ∀ l : List Char, (∀ c ∈ l, c ≠ '\n' ∧ c ≠ '\r') → lineBreaksL l = l := by
  intro l
  induction l with
  | nil => intro; rfl
  | cons a tl ih =>
    intro h
    have ha := h a (List.mem_cons_self a tl)
    have htl : ∀ c ∈ tl, c ≠ '\n' ∧ c ≠ '\r' := fun c hc => h c (List.mem_cons_of_mem a hc)
    rw [lineBreaksL_cons_ne a tl ha.1 ha.2, ih htl]

theorem replaceNbspL_id (l : List Char) (h : ∀ c ∈ l, c ≠ nbspChar) :
    replaceNbspL l = l := by
  rw [replaceNbspL]
  conv_rhs => rw [← List.map_id l]
  apply List.map_congr_left
  intro c hc
  simp [h c hc]

theorem replaceNbspL_id_of_wsSpaces (l : List Char) (h : wsSpacesL l = true) :
    replaceNbspL l = l := by
  apply replaceNbspL_id
  intro c hc hn
  have := (List.all_eq_true.mp h) c hc
  subst hn
  revert this
  decide

theorem no_newline_of_wsSpaces (l : List Char) (h : wsSpacesL l = true) :
    ∀ c ∈ l, c ≠ '\n' ∧ c ≠ '\r' := by
  intro c hc
  have := (List.all_eq_true.mp h) c hc
  constructor <;> intro he <;> subst he <;> revert this <;> decide

theorem no_char_of_wsSpaces (l : List Char) (h : wsSpacesL l = true) (c0 : Char)
    (hws : jsWs c0 = true) (hne : c0 ≠ ' ') : ∀ c ∈ l, (c = c0 : Bool) = false := by
  intro c hc
  have := (List.all_eq_true.mp h) c hc
  simp only [Bool.or_eq_true, Bool.not_eq_true'] at this
  rcases this with h1 | h1
  · simp only [decide_eq_false_iff_not]
    intro he
    subst he
    exact absurd h1 (by simp [hws])
  · have h2 : c = ' ' := by simpa using h1
    simp only [decide_eq_false_iff_not]
    intro he
    subst he
    exact hne h2

theorem mem_dropWhile (p : Char → Bool) :
    ∀ l : List Char, ∀ c ∈ l.dropWhile p, c ∈ l := by
  intro l
  induction l with
  | nil => simp
  | cons a tl ih =>
    intro c hc
    rw [List.dropWhile_cons] at hc
    by_cases hp : p a
    · simp only [hp, if_pos] at hc
      exact List.mem_cons_of_mem a (ih c hc)
    · simp only [hp, if_neg, Bool.false_eq_true, not_false_iff] at hc
      exact hc

theorem noAdj_dropWhile (p : Char → Bool) :
    ∀ l : List Char, noAdjWsL l = true → noAdjWsL (l.dropWhile p) = true := by
  intro l
  induction l with
  | nil => simp
  | cons a tl ih =>
    intro h
    rw [List.dropWhile_cons]
    by_cases hp : p a
    · simp only [hp, if_pos]
      cases tl with
      | nil => simp [List.dropWhile, noAdjWsL]
      | cons b tl2 => exact ih (noAdjWsL_cons.mp h).1
    · simpa [hp] using h

theorem frontOk_dropWhile_jsWs (l : List Char) :
    frontOkL (l.dropWhile jsWs) = true := by
  induction l with
  | nil => simp [frontOkL]
  | cons a tl ih =>
    rw [List.dropWhile_cons]
    by_cases hp : jsWs a
    · simpa [hp] using ih
    · simp [hp, frontOkL]

theorem dropWhile_id_of_frontOk (l : List Char) (h : frontOkL l = true) :
    l.dropWhile jsWs = l := by
  cases l with
  | nil => rfl
  | cons a tl =>
    rw [List.dropWhile_cons]
    have : jsWs a = false := by simpa [frontOkL] using h
    simp [this]

theorem trimEndL_cons (a : Char) (tl : List Char) :
    trimEndL (a :: tl) =
      match trimEndL tl with
      | [] => if jsWs a then [] else [a]
      | t => a :: t := rfl

theorem trimEndL_shape (c : Char) (rest : List Char) :
    trimEndL (c :: rest) = [] ∨ ∃ t, trimEndL (c :: rest) = c :: t := by
  rw [trimEndL_cons]
  cases h : trimEndL rest with
  | nil =>
    by_cases hp : jsWs c
    · left; simp [hp]
    · right; exact ⟨[], by simp [hp]⟩
  | cons x t2 => right; exact ⟨x :: t2, by simp⟩

theorem mem_trimEndL : ∀ l : List Char, ∀ c ∈ trimEndL l, c ∈ l := by
  intro l
  induction l with
  | nil => simp [trimEndL]
  | cons a tl ih =>
    intro c hc
    rw [trimEndL_cons] at hc
    cases h : trimEndL tl with
    | nil =>
      rw [h] at hc
      by_cases hp : jsWs a
      · simp [hp] at hc
      · simp only [hp, Bool.false_eq_true, if_neg, not_false_iff, List.mem_singleton] at hc
        simp [hc]
    | cons x t2 =>
      rw [h] at hc
      rcases List.mem_cons.mp hc with h1 | h1
      · simp [h1]
      · exact List.mem_cons_of_mem a (ih c (h ▸ h1))

theorem backOk_trimEndL : ∀ l : List Char, backOkL (trimEndL l) = true := by
  intro l
  induction l with
  | nil => simp [trimEndL, backOkL]
  | cons a tl ih =>
    rw [trimEndL_cons]
    cases h : trimEndL tl with
    | nil =>
      by_cases hp : jsWs a
      · simp [hp, backOkL]
      · simp [hp, backOkL]
    | cons x t2 =>
      have : backOkL (a :: x :: t2) = backOkL (x :: t2) := rfl
      rw [this, ← h]
      exact ih

theorem head_trimEndL (a : Char) (tl : List Char) :
    trimEndL (a :: tl) = [] ∨ (trimEndL (a :: tl)).head? = some a := by
  rcases trimEndL_shape a tl with h | ⟨t, h⟩
  · exact Or.inl h
  · right; rw [h]; rfl

theorem noAdj_trimEndL : ∀ l : List Char, noAdjWsL l = true → noAdjWsL (trimEndL l) = true := by
  intro l
  induction l with
  | nil => simp [trimEndL]
  | cons a tl ih =>
    intro h
    rw [trimEndL_cons]
    cases htl : trimEndL tl with
    | nil =>
      by_cases hp : jsWs a <;> simp [hp, noAdjWsL]
    | cons x t2 =>
      cases tl with
      | nil => simp [trimEndL] at htl
      | cons b tl2 =>
        have hx : x = b := by
          rcases trimEndL_shape b tl2 with h2 | ⟨t, h2⟩
          · rw [h2] at htl; exact absurd htl (by simp)
          · rw [h2] at htl
            exact (List.cons.injEq .. ▸ htl).1.symm ▸ rfl
        subst hx
        rw [noAdjWsL_cons]
        refine ⟨htl ▸ ih (noAdjWsL_cons.mp h).1, ?_⟩
        intro d hd
        simp only [List.head?] at hd
        have hd2 : x = d := by simpa using hd
        subst hd2
        exact (noAdjWsL_cons.mp h).2 x rfl

theorem trimEndL_id_of_backOk : ∀ l : List Char, backOkL l = true → trimEndL l = l := by
  intro l
  induction l with
  | nil => intro _; rfl
  | cons a tl ih =>
    intro h
    rw [trimEndL_cons]
    cases tl with
    | nil =>
      have : jsWs a = false := by simpa [backOkL] using h
      simp [trimEndL, this]
    | cons b tl2 =>
      have htl : backOkL (b :: tl2) = true := by simpa [backOkL] using h
      rw [ih htl]

theorem frontOk_trimEndL (l : List Char) (h : frontOkL l = true) :
    frontOkL (trimEndL l) = true := by
  cases l with
  | nil => simp [trimEndL, frontOkL]
  | cons a tl =>
    rcases head_trimEndL a tl with h2 | h2
    · simp [h2, frontOkL]
    · cases h3 : trimEndL (a :: tl) with
      | nil => simp [frontOkL]
      | cons x t =>
        rw [h3] at h2
        have : x = a := by simpa using h2
        subst this
        simpa [frontOkL] using h

theorem wsSpaces_of_mem_imp (l m : List Char) (hsub : ∀ c ∈ m, c ∈ l)
    (h : wsSpacesL l = true) : wsSpacesL m = true := by
  rw [wsSpacesL, List.all_eq_true]
  intro c hc
  exact (List.all_eq_true.mp h) c (hsub c hc)

theorem normalized_jsTrimL (l : List Char) (hws : wsSpacesL l = true)
    (hadj : noAdjWsL l = true) : NormalizedData (jsTrimL l) := by
  rw [jsTrimL]
  refine ⟨?_, ?_, ?_, backOk_trimEndL _⟩
  · exact wsSpaces_of_mem_imp l _
      (fun c hc => mem_dropWhile jsWs l c (mem_trimEndL _ c hc)) hws
  · exact noAdj_trimEndL _ (noAdj_dropWhile jsWs l hadj)
  · exact frontOk_trimEndL _ (frontOk_dropWhile_jsWs l)

theorem jsTrimL_id_of_normalized (l : List Char) (h : NormalizedData l) :
    jsTrimL l = l := by
  rw [jsTrimL, dropWhile_id_of_frontOk l h.2.2.1, trimEndL_id_of_backOk l h.2.2.2]

theorem normalized_cjs_core (l : List Char) :
    NormalizedData (jsTrimL (replaceNbspL (collapseRuns jsWs (lineBreaksL l)))) := by
  have hws := wsSpaces_collapseRuns (lineBreaksL l)
  have hadj := noAdj_collapseRuns (lineBreaksL l)
  rw [replaceNbspL_id_of_wsSpaces _ hws]
  exact normalized_jsTrimL _ hws hadj

theorem cjs_core_id_of_normalized (l : List Char) (h : NormalizedData l) :
    jsTrimL (replaceNbspL (collapseRuns jsWs (lineBreaksL l))) = l := by
  rw [lineBreaksL_id l (no_newline_of_wsSpaces l h.1),
    collapseRuns_id_of_clean l h.1 h.2.1,
    replaceNbspL_id_of_wsSpaces l h.1,
    jsTrimL_id_of_normalized l h]

theorem cjs_cleanContent_normalized (x : String) :
    NormalizedData (Cjs.cleanContent x).data := by
  rw [Cjs.cleanContent]
  exact normalized_cjs_core x.data

theorem cjs_cleanContent_idempotent (x : String) :
    Cjs.cleanContent (Cjs.cleanContent x) = Cjs.cleanContent x := by
  have h := cjs_cleanContent_normalized x
  conv_lhs => rw [Cjs.cleanContent]
  rw [cjs_core_id_of_normalized _ h]

theorem esm_core_eq (l : List Char) :
    collapseRuns (fun c => c = '\t')
        (collapseRuns (fun c => c = '\n') (collapseRuns jsWs l)) =
      collapseRuns jsWs l := by
  have hws := wsSpaces_collapseRuns l
  have hnl : ∀ c ∈ collapseRuns jsWs l, (c = '\n' : Bool) = false :=
    no_char_of_wsSpaces _ hws '\n' (by decide) (by decide)
  have htab0 : ∀ c ∈ collapseRuns jsWs l, (c = '\t' : Bool) = false :=
    no_char_of_wsSpaces _ hws '\t' (by decide) (by decide)
  rw [collapseRuns_id_of_none _ _ hnl, collapseRuns_id_of_none _ _ htab0]

theorem esm_cleanContent_normalized (x : String) :
    NormalizedData (Esm.cleanContent x).data := by
  rw [Esm.cleanContent]
  by_cases hx : x = ""
  · simp only [hx, if_pos]
    exact ⟨rfl, rfl, rfl, rfl⟩
  · simp only [hx, if_neg]
    rw [esm_core_eq]
    exact normalized_jsTrimL _ (wsSpaces_collapseRuns x.data) (noAdj_collapseRuns x.data)

theorem esm_cleanContent_idempotent (x : String) :
    Esm.cleanContent (Esm.cleanContent x) = Esm.cleanContent x := by
  have h := esm_cleanContent_normalized x
  by_cases hy : Esm.cleanContent x = ""
  · rw [hy]; rfl
  · conv_lhs => rw [Esm.cleanContent]
    simp only [hy, if_neg]
    rw [esm_core_eq (Esm.cleanContent x).data,
      collapseRuns_id_of_clean _ h.1 h.2.1,
      jsTrimL_id_of_normalized _ h]
    simp

theorem navLoop_allFail (nav : Nat → NavBehavior)
    (h : ∀ n, (raceAttempt (nav n) navigationTimeout).isSuccess = false) :
    navLoop nav 0 maxAttempts =
      (NavExit.returnedEmpty,
       [FetchEvent.navAttempt 1 navigationTimeout, FetchEvent.sleep 2000,
        FetchEvent.navAttempt 2 navigationTimeout, FetchEvent.sleep 2000,
        FetchEvent.navAttempt 3 navigationTimeout]) := by
  have step : ∀ n, raceAttempt (nav n) navigationTimeout = AttemptOutcome.navError ∨
      raceAttempt (nav n) navigationTimeout = AttemptOutcome.timerTimeout := by
    intro n
    cases hr : raceAttempt (nav n) navigationTimeout with
    | success r => exact absurd (h n) (by simp [hr, AttemptOutcome.isSuccess])
    | navError => exact Or.inl rfl
    | timerTimeout => exact Or.inr rfl
  have h1 := step 1
  have h2 := step 2
  have h3 := step 3
  simp only [navigationTimeout] at h1 h2 h3
  show navLoop nav 0 3 = _
  rw [navLoop, navLoop, navLoop]
  rcases h1 with h1 | h1 <;> rcases h2 with h2 | h2 <;> rcases h3 with h3 | h3 <;>
    simp [h1, h2, h3, maxAttempts, navigationTimeout]

theorem navLoop_count_close (nav : Nat → NavBehavior) :
    ∀ (fuel attempts : Nat),
      ((navLoop nav attempts fuel).2).count FetchEvent.close = 0 := by
  intro fuel
  induction fuel with
  | zero => intro attempts; rfl
  | succ f ih =>
    intro attempts
    rw [navLoop]
    cases raceAttempt (nav (attempts + 1)) navigationTimeout with
    | success r => simp [List.count_cons]
    | navError =>
      by_cases hle : maxAttempts ≤ attempts + 1
      · simp [hle, List.count_cons]
      · simp [hle, List.count_cons, ih (attempts + 1)]
    | timerTimeout =>
      by_cases hle : maxAttempts ≤ attempts + 1
      · simp [hle, List.count_cons]
      · simp [hle, List.count_cons, ih (attempts + 1)]

theorem esm_content_floor (env : UrlEnv) (url : String) :
    (Esm.scrapeContent env url).1.content = "" ∨
      100 ≤ (Esm.scrapeContent env url).1.content.length := by
  unfold Esm.scrapeContent
  split
  · left; rfl
  split
  · left; rfl
  split <;> try (left; rfl)
  split
  · left; rfl
  split
  · left; rfl
  next =>
    split
    · left; rfl
    next hfloor =>
      right
      simp only [withSession, Bool.or_eq_true, decide_eq_true_eq, not_or] at *
      omega

theorem navLoop_count_launch (nav : Nat → NavBehavior) :
    ∀ (fuel attempts : Nat),
      ((navLoop nav attempts fuel).2).count FetchEvent.launch = 0 := by
  intro fuel
  induction fuel with
  | zero => intro attempts; rfl
  | succ f ih =>
    intro attempts
    rw [navLoop]
    cases raceAttempt (nav (attempts + 1)) navigationTimeout with
    | success r => simp [List.count_cons]
    | navError =>
      by_cases hle : maxAttempts ≤ attempts + 1
      · simp [hle, List.count_cons]
      · simp [hle, List.count_cons, ih (attempts + 1)]
    | timerTimeout =>
      by_cases hle : maxAttempts ≤ attempts + 1
      · simp [hle, List.count_cons]
      · simp [hle, List.count_cons, ih (attempts + 1)]

theorem count_close_withSession (tr : List FetchEvent) (r : ScrapeResult)
    (htr : tr.count FetchEvent.close = 0) :
    ((withSession tr r).2).count FetchEvent.close = 1 := by
  simp [withSession, List.count_append, List.count_cons, htr]

theorem count_launch_withSession (tr : List FetchEvent) (r : ScrapeResult)
    (htr : tr.count FetchEvent.launch = 0) :
    ((withSession tr r).2).count FetchEvent.launch = 1 := by
  simp [withSession, List.count_append, List.count_cons, htr]

theorem navsnd_count_close (nav : Nat → NavBehavior) (ex : NavExit)
    (tr : List FetchEvent) (heq : navLoop nav 0 maxAttempts = (ex, tr)) :
    tr.count FetchEvent.close = 0 := by
  have h0 := navLoop_count_close nav maxAttempts 0
  rw [heq] at h0
  exact h0

theorem navsnd_count_launch (nav : Nat → NavBehavior) (ex : NavExit)
    (tr : List FetchEvent) (heq : navLoop nav 0 maxAttempts = (ex, tr)) :
    tr.count FetchEvent.launch = 0 := by
  have h0 := navLoop_count_launch nav maxAttempts 0
  rw [heq] at h0
  exact h0

theorem esm_close_count (env : UrlEnv) (url : String) :
    ((Esm.scrapeContent env url).2).count FetchEvent.close =
      (if isHomepage url = false ∧ env.launchOk = true then 1 else 0) := by
  unfold Esm.scrapeContent
  split
  next hh => simp [hh]
  next hh =>
    split
    next hl => simp [hl]
    next hl =>
      have hcond : isHomepage url = false ∧ env.launchOk = true := by
        constructor
        · simpa using hh
        · simpa using hl
      rw [if_pos hcond]
      split
      next tr heq => exact count_close_withSession _ _ (navsnd_count_close _ _ _ heq)
      next tr heq => exact count_close_withSession _ _ (navsnd_count_close _ _ _ heq)
      next tr heq => exact count_close_withSession _ _ (navsnd_count_close _ _ _ heq)
      next _ tr heq =>
        have h0 := navsnd_count_close _ _ _ heq
        split
        · exact count_close_withSession _ _ h0
        split
        · exact count_close_withSession _ _ h0
        split
        · exact count_close_withSession _ _ h0
        · exact count_close_withSession _ _ h0

theorem cjs_close_count (env : UrlEnv) (url : String) :
    ((Cjs.scrapeContent env url).2).count FetchEvent.close =
      (if isHomepage url = false ∧ env.launchOk = true then 1 else 0) := by
  unfold Cjs.scrapeContent
  split
  next hh => simp [hh]
  next hh =>
    split
    next hl => simp [hl]
    next hl =>
      have hcond : isHomepage url = false ∧ env.launchOk = true := by
        constructor
        · simpa using hh
        · simpa using hl
      rw [if_pos hcond]
      split
      next tr heq => exact count_close_withSession _ _ (navsnd_count_close _ _ _ heq)
      next tr heq => exact count_close_withSession _ _ (navsnd_count_close _ _ _ heq)
      next tr heq => exact count_close_withSession _ _ (navsnd_count_close _ _ _ heq)
      next _ tr heq =>
        have h0 := navsnd_count_close _ _ _ heq
        split
        · exact count_close_withSession _ _ h0
        split
        · exact count_close_withSession _ _ h0
        · exact count_close_withSession _ _ h0

theorem esm_launch_count (env : UrlEnv) (url : String) :
    ((Esm.scrapeContent env url).2).count FetchEvent.launch =
      (if isHomepage url = false ∧ env.launchOk = true then 1 else 0) := by
  unfold Esm.scrapeContent
  split
  next hh => simp [hh]
  next hh =>
    split
    next hl => simp [hl]
    next hl =>
      have hcond : isHomepage url = false ∧ env.launchOk = true := by
        constructor
        · simpa using hh
        · simpa using hl
      rw [if_pos hcond]
      split
      next tr heq => exact count_launch_withSession _ _ (navsnd_count_launch _ _ _ heq)
      next tr heq => exact count_launch_withSession _ _ (navsnd_count_launch _ _ _ heq)
      next tr heq => exact count_launch_withSession _ _ (navsnd_count_launch _ _ _ heq)
      next _ tr heq =>
        have h0 := navsnd_count_launch _ _ _ heq
        split
        · exact count_launch_withSession _ _ h0
        split
        · exact count_launch_withSession _ _ h0
        split
        · exact count_launch_withSession _ _ h0
        · exact count_launch_withSession _ _ h0

theorem cjs_launch_count (env : UrlEnv) (url : String) :
    ((Cjs.scrapeContent env url).2).count FetchEvent.launch =
      (if isHomepage url = false ∧ env.launchOk = true then 1 else 0) := by
  unfold Cjs.scrapeContent
  split
  next hh => simp [hh]
  next hh =>
    split
    next hl => simp [hl]
    next hl =>
      have hcond : isHomepage url = false ∧ env.launchOk = true := by
        constructor
        · simpa using hh
        · simpa using hl
      rw [if_pos hcond]
      split
      next tr heq => exact count_launch_withSession _ _ (navsnd_count_launch _ _ _ heq)
      next tr heq => exact count_launch_withSession _ _ (navsnd_count_launch _ _ _ heq)
      next tr heq => exact count_launch_withSession _ _ (navsnd_count_launch _ _ _ heq)
      next _ tr heq =>
        have h0 := navsnd_count_launch _ _ _ heq
        split
        · exact count_launch_withSession _ _ h0
        split
        · exact count_launch_withSession _ _ h0
        · exact count_launch_withSession _ _ h0

theorem esm_batch_filterMap (env : String → UrlEnv) :
    ∀ rs : List SearchResult,
      (Esm.scrapeMultipleUrls env rs).1 = rs.filterMap (Esm.emit env) := by
  intro rs
  induction rs with
  | nil => rfl
  | cons r rest ih =>
    rw [Esm.scrapeMultipleUrls, List.filterMap_cons, Esm.emit]
    by_cases h : (Esm.scrapeContent (env r.url) r.url).1.content ≠ ""
    · simp [if_pos h, ih]
    · simp [if_neg h, ih]

theorem cjs_batch_filterMap (env : String → UrlEnv) :
    ∀ rs : List SearchResult,
      (Cjs.scrapeMultipleUrls env rs).1 = rs.filterMap (Cjs.emit env) := by
  intro rs
  induction rs with
  | nil => rfl
  | cons r rest ih =>
    rw [Cjs.scrapeMultipleUrls, List.filterMap_cons, Cjs.emit]
    by_cases hh : isHomepage r.url = true
    · simp [if_pos hh, ih]
    · by_cases h : (Cjs.scrapeContent (env r.url) r.url).1.content ≠ ""
      · simp [if_neg hh, if_pos h, ih]
      · simp [if_neg hh, if_neg h, ih]

theorem esm_batch_content (env : String → UrlEnv) :
    ∀ rs : List SearchResult, ∀ a ∈ (Esm.scrapeMultipleUrls env rs).1,
      a.content ≠ "" ∧ 100 ≤ a.content.length := by
  intro rs
  induction rs with
  | nil => simp [Esm.scrapeMultipleUrls]
  | cons r rest ih =>
    intro a ha
    rw [Esm.scrapeMultipleUrls] at ha
    by_cases h : (Esm.scrapeContent (env r.url) r.url).1.content ≠ ""
    · rw [if_pos h] at ha
      rcases List.mem_cons.mp ha with h1 | h1
      · subst h1
        refine ⟨h, ?_⟩
        rcases esm_content_floor (env r.url) r.url with h2 | h2
        · exact absurd h2 h
        · exact h2
      · exact ih a h1
    · rw [if_neg h] at ha
      exact ih a ha

theorem cjs_batch_content (env : String → UrlEnv) :
    ∀ rs : List SearchResult, ∀ a ∈ (Cjs.scrapeMultipleUrls env rs).1,
      a.content ≠ "" := by
  intro rs
  induction rs with
  | nil => simp [Cjs.scrapeMultipleUrls]
  | cons r rest ih =>
    intro a ha
    rw [Cjs.scrapeMultipleUrls] at ha
    by_cases hh : isHomepage r.url = true
    · rw [if_pos hh] at ha
      exact ih a ha
    · rw [if_neg hh] at ha
      by_cases h : (Cjs.scrapeContent (env r.url) r.url).1.content ≠ ""
      · rw [if_pos h] at ha
        rcases List.mem_cons.mp ha with h1 | h1
        · subst h1; exact h
        · exact ih a h1
      · rw [if_neg h] at ha
        exact ih a ha

theorem esm_batch_trace (env : String → UrlEnv) :
    ∀ rs : List SearchResult,
      (Esm.scrapeMultipleUrls env rs).2 =
        rs.flatMap (fun r => [BatchEvent.process r.url, BatchEvent.delay 1000]) := by
  intro rs
  induction rs with
  | nil => rfl
  | cons r rest ih =>
    rw [Esm.scrapeMultipleUrls, List.flatMap_cons]
    by_cases h : (Esm.scrapeContent (env r.url) r.url).1.content ≠ ""
    · simp [if_pos h, ih]
    · simp [if_neg h, ih]

theorem cjs_batch_trace (env : String → UrlEnv) :
    ∀ rs : List SearchResult,
      (Cjs.scrapeMultipleUrls env rs).2 =
        rs.map (fun r => BatchEvent.process r.url) := by
  intro rs
  induction rs with
  | nil => rfl
  | cons r rest ih =>
    rw [Cjs.scrapeMultipleUrls, List.map_cons]
    by_cases hh : isHomepage r.url = true
    · simp [if_pos hh, ih]
    · by_cases h : (Cjs.scrapeContent (env r.url) r.url).1.content ≠ ""
      · simp [if_neg hh, if_pos h, ih]
      · simp [if_neg hh, if_neg h, ih]

/-! ## Claims -/

/-- C5: the classifier `isHomepage` never raises (it is a total function);
root and index-like paths and non-article boilerplate paths — exact or with a
trailing slash, case-insensitively — are skippable; an article-like dated
path is not skippable; and a URL the platform parser rejects is reported not
skippable. -/
theorem claim_C5 :
    isHomepage "https://example.com/" = true ∧
    isHomepage "https://example.com/index.html" = true ∧
    isHomepage "https://example.com/home/" = true ∧
    isHomepage "https://example.com/about" = true ∧
    isHomepage "https://example.com/privacy/" = true ∧
    isHomepage "https://example.com/ABOUT" = true ∧
    isHomepage "https://example.com/PRIVACY/" = true ∧
    isHomepage "https://example.com/2025/06/19/article-slug/" = false ∧
    (∀ url, parseUrl url = none → isHomepage url = false) ∧
    parseUrl "not a url" = none ∧
    isHomepage "not a url" = false := by
  refine ⟨by decide, by decide, by decide, by decide, by decide, by decide,
    by decide, by decide, ?_, by decide, by decide⟩
  intro url h
  rw [isHomepage, h]

/-- C5 witness: the malformed-input conjunct applied at a concrete
unparseable string. -/
theorem claim_C5_witness : isHomepage "::::" = false :=
  claim_C5.2.2.2.2.2.2.2.2.1 "::::" (by decide)

/-- C6: both copies of the text normalizer `cleanContent` are pure total
functions; they are idempotent, collapse whitespace runs (newlines, tabs,
NBSP included) into single ASCII spaces and trim — formalized as
`NormalizedData` of the output — and map the spec's example
`"a\n\n\tb   c"` to `"a b c"`. -/
theorem claim_C6 :
    (∀ x, Cjs.cleanContent (Cjs.cleanContent x) = Cjs.cleanContent x) ∧
    (∀ x, Esm.cleanContent (Esm.cleanContent x) = Esm.cleanContent x) ∧
    Cjs.cleanContent "a\n\n\tb   c" = "a b c" ∧
    Esm.cleanContent "a\n\n\tb   c" = "a b c" ∧
    Cjs.cleanContent (String.mk ['a', nbspChar, nbspChar, 'b']) = "a b" ∧
    Esm.cleanContent (String.mk ['a', nbspChar, nbspChar, 'b']) = "a b" ∧
    (∀ x, NormalizedData (Cjs.cleanContent x).data) ∧
    (∀ x, NormalizedData (Esm.cleanContent x).data) :=
  ⟨cjs_cleanContent_idempotent, esm_cleanContent_idempotent,
   by decide, by decide, by decide, by decide,
   cjs_cleanContent_normalized, esm_cleanContent_normalized⟩

/-- C3: when every navigation attempt fails (each race of `page.goto`
against the 30s timer settles without a successful navigation — a timer win
included, which is caught exactly like a navigation error), both copies of
`scrapeContent` perform exactly 3 attempts, each raced against the 30000ms
timer, sleep 2000ms between consecutive attempts, and return
`{ content: "", publishedDate: null }` normally (no exception propagates to
the batch coordinator, whose per-URL value this is). -/
theorem claim_C3 (env : UrlEnv) (url : String)
    (hfail : ∀ n, (raceAttempt (env.nav n) navigationTimeout).isSuccess = false)
    (hurl : isHomepage url = false) (hlaunch : env.launchOk = true) :
    Esm.scrapeContent env url = (emptyResult, failTrace) ∧
    Cjs.scrapeContent env url = (emptyResult, failTrace) := by
  have hnav := navLoop_allFail env.nav hfail
  constructor
  · unfold Esm.scrapeContent
    rw [hnav]
    simp [hurl, hlaunch, withSession, failTrace, navigationTimeout]
  · unfold Cjs.scrapeContent
    rw [hnav]
    simp [hurl, hlaunch, withSession, failTrace, navigationTimeout]

/-- C3 witness: a URL whose navigation hangs on every attempt. -/
theorem claim_C3_witness :
    Esm.scrapeContent hangEnv articleUrl = (emptyResult, failTrace) ∧
    Cjs.scrapeContent hangEnv articleUrl = (emptyResult, failTrace) :=
  claim_C3 hangEnv articleUrl (fun _ => rfl) (by decide) rfl

/-- C8: in both copies of `scrapeContent`, the session-event trace contains
exactly one `close` exactly when a browser was launched (the URL was not
skipped as a homepage and the launch succeeded), and zero `close` events
otherwise — i.e. every exit path after acquisition (success, navigation
exhaustion, null response, non-OK status, insufficient content, thrown
error) releases the session exactly once, and no path closes a browser that
was never launched. -/
theorem claim_C8 (env : UrlEnv) (url : String) :
    ((Esm.scrapeContent env url).2).count FetchEvent.close =
        (if isHomepage url = false ∧ env.launchOk = true then 1 else 0) ∧
    ((Cjs.scrapeContent env url).2).count FetchEvent.close =
        (if isHomepage url = false ∧ env.launchOk = true then 1 else 0) ∧
    ((Esm.scrapeContent env url).2).count FetchEvent.launch =
        (if isHomepage url = false ∧ env.launchOk = true then 1 else 0) ∧
    ((Cjs.scrapeContent env url).2).count FetchEvent.launch =
        (if isHomepage url = false ∧ env.launchOk = true then 1 else 0) :=
  ⟨esm_close_count env url, cjs_close_count env url,
   esm_launch_count env url, cjs_launch_count env url⟩

/-- C9 counterexample: the CommonJS copy of `scrapeMultipleUrls` emits no
delay step at all — for a concrete 2-URL batch its event trace is just the
two per-URL processing steps, refuting "a 1-second delay step occurs between
every pair of consecutive per-URL attempts" for that coordinator. -/
theorem claim_C9_counterexample :
    (Cjs.scrapeMultipleUrls (fun _ => hangEnv)
        [{ url := "https://ex.com/2025/06/19/aa/", title := "A" },
         { url := "https://ex.com/2025/06/19/bb/", title := "B" }]).2 =
      [BatchEvent.process "https://ex.com/2025/06/19/aa/",
       BatchEvent.process "https://ex.com/2025/06/19/bb/"] ∧
    BatchEvent.delay 1000 ∉
      (Cjs.scrapeMultipleUrls (fun _ => hangEnv)
        [{ url := "https://ex.com/2025/06/19/aa/", title := "A" },
         { url := "https://ex.com/2025/06/19/bb/", title := "B" }]).2 := by
  constructor
  · decide
  · decide

/-- C9 (amended): the ESM coordinator's event trace is exactly one
`process` step followed by one 1000ms `delay` step per input URL — so a
1s delay separates every pair of consecutive per-URL attempts — while the
CommonJS coordinator's trace is the bare `process` steps with no delay. -/
theorem claim_C9_amended (env : String → UrlEnv) (rs : List SearchResult) :
    (Esm.scrapeMultipleUrls env rs).2 =
      rs.flatMap (fun r => [BatchEvent.process r.url, BatchEvent.delay 1000]) ∧
    (Cjs.scrapeMultipleUrls env rs).2 =
      rs.map (fun r => BatchEvent.process r.url) :=
  ⟨esm_batch_trace env rs, cjs_batch_trace env rs⟩

/-- C2: both coordinators return exactly the per-URL successful emissions,
as a `filterMap` over the input order — so any per-URL outcome (skip, fetch
failure, insufficient content) removes only that URL's entry, never aborts
the batch, and the relative order of successes is preserved; on the spec's
5-URL batch (2 skippable, 1 permanent navigation failure, 2 successes) both
return exactly the 2 articles in input order. -/
theorem claim_C2 (env : String → UrlEnv) (rs : List SearchResult) :
    (Esm.scrapeMultipleUrls env rs).1 = rs.filterMap (Esm.emit env) ∧
    (Cjs.scrapeMultipleUrls env rs).1 = rs.filterMap (Cjs.emit env) ∧
    (Esm.scrapeMultipleUrls env5 batch5).1 = [art2, art5] ∧
    (Cjs.scrapeMultipleUrls env5 batch5).1 = [art2, art5] :=
  ⟨esm_batch_filterMap env rs, cjs_batch_filterMap env rs, by decide, by decide⟩

/-- C1 counterexample: the CommonJS coordinator can emit an article whose
content is only 60 characters long — no 100-character floor is enforced in
that copy, refuting the claim for `scrapeMultipleUrls` as exported by
`src/unnamed/part_000`. -/
theorem claim_C1_counterexample :
    (Cjs.scrapeMultipleUrls (fun _ => okEnv docShort) [rShort]).1 =
      [{ url := rShort.url, title := rShort.title, content := b60,
         publishedDate := none }] ∧
    b60.length = 60 ∧ b60 ≠ "" := by
  refine ⟨by decide, by decide, by decide⟩

/-- C1 (amended): every article emitted by the ESM coordinator
(`src/src/messenger.js`) has non-empty content of length at least 100 (the
floor applied to the normalized text); the CommonJS coordinator
(`src/unnamed/part_000`) guarantees only that emitted content is non-empty,
enforcing no 100-character floor. -/
theorem claim_C1_amended :
    (∀ env rs, ∀ a ∈ (Esm.scrapeMultipleUrls env rs).1,
        a.content ≠ "" ∧ 100 ≤ a.content.length) ∧
    (∀ env rs, ∀ a ∈ (Cjs.scrapeMultipleUrls env rs).1, a.content ≠ "") :=
  ⟨fun env rs => esm_batch_content env rs, fun env rs => cjs_batch_content env rs⟩

/-- C1 witness: the amended claim applied to a concrete successful batch. -/
theorem claim_C1_witness : art2.content ≠ "" ∧ 100 ≤ art2.content.length :=
  claim_C1_amended.1 env5 batch5 art2 (by decide)

/-- C4 counterexample: on the spec's precision-over-recall document (a
single 250-character container, 50 characters of paragraphs) the CommonJS
copy returns the paragraph text, not the container's text — its container
threshold is 500, not 200, so the claim fails on that extractor. -/
theorem claim_C4_counterexample :
    (Cjs.scrapeContent (okEnv doc250) articleUrl).1.content = p50 ∧
    jsTrim c250 = c250 ∧ c250.length = 250 ∧ p50 ≠ c250 := by
  refine ⟨by decide, by decide, by decide, by decide⟩

/-- C4 (amended): in the ESM copy (`src/src/messenger.js`), the extractor
accepts the first listed container whose trimmed text exceeds 200
characters and returns it unchanged (never the paragraph text); with no
qualifying container it falls back to space-joined paragraph text, and to
whole-body text only when still under 100 characters; the spec's
250-character-container document yields the container text there.  The
CommonJS copy (`src/unnamed/part_000`) instead uses a 500-character
container threshold with a comprehensive title/heading/paragraph/list
fallback and a 50-character body-fallback bar. -/
theorem claim_C4_amended :
    (∀ doc, 200 < (Esm.findContainerText doc Esm.contentSelectors).length →
        Esm.extractText doc = Esm.findContainerText doc Esm.contentSelectors) ∧
    Esm.extractText doc250 = c250 ∧
    Esm.extractText docPara = p150 ++ " " ++ q149 ∧
    (p150 ++ " " ++ q149).length = 300 ∧
    Esm.extractText docBodyOnly = b120 ∧
    Esm.extractText docOrder = a201 := by
  refine ⟨?_, by decide, by decide, by decide, by decide, by decide⟩
  intro doc h
  have hne : Esm.findContainerText doc Esm.contentSelectors ≠ "" := by
    intro he
    rw [he] at h
    simp at h
  simp only [Esm.extractText]
  have hc1 : ¬((decide (Esm.findContainerText doc Esm.contentSelectors = "") ||
      decide ((Esm.findContainerText doc Esm.contentSelectors).length < 200)) = true) := by
    simp only [Bool.or_eq_true, decide_eq_true_eq, not_or]
    exact ⟨by simpa using hne, by omega⟩
  rw [if_neg hc1]
  have hc2 : ¬((decide (Esm.findContainerText doc Esm.contentSelectors = "") ||
      decide ((Esm.findContainerText doc Esm.contentSelectors).length < 100)) = true) := by
    simp only [Bool.or_eq_true, decide_eq_true_eq, not_or]
    exact ⟨by simpa using hne, by omega⟩
  rw [if_neg hc2]

/-- C4 witness: the container-priority conjunct applied at the
250-character-container document. -/
theorem claim_C4_witness :
    Esm.extractText doc250 = Esm.findContainerText doc250 Esm.contentSelectors :=
  claim_C4_amended.1 doc250 (by decide)

/-- C7 counterexample: the CommonJS copy's `extractPublicationDate` never
probes the class-based containers — on a document whose only (hence first
non-empty) date source is `.date`, it returns `none`, refuting the claimed
probe list for that copy. -/
theorem claim_C7_counterexample :
    Cjs.extractPublicationDate docDotDate = none ∧
    List.lookup ".date" docDotDate.dateValues = some "June 19, 2025" := by
  refine ⟨by decide, by decide⟩

/-- C7 (amended): in the ESM copy (`src/src/messenger.js`),
`extractPublicationDate` probes its sources in the spec's fixed order
(`article:published_time`, then the `publish_date`/`date`/`pubdate`/
`publication_date` metas, then `time[datetime]`, then the class-based
containers), returns the first non-empty value trimmed, returns `none` when
nothing matches, and never raises (it is total); for the spec's
`article:published_time` document it returns that very date.  The CommonJS
copy probes only `article:published_time`, `pubdate`, `publication_date`,
`date` and `time[datetime]`, and normalizes parseable values to
`YYYY-MM-DD` — on the same document it returns `"2025-06-19"`. -/
theorem claim_C7_amended :
    (∀ doc v,
        List.lookup "meta[property=\"article:published_time\"]" doc.dateValues
            = some v →
        v ≠ "" → Esm.extractPublicationDate doc = some (jsTrim v)) ∧
    Esm.extractPublicationDate docPubTime = some "2025-06-19T10:00:00Z" ∧
    Esm.extractPublicationDate {} = none ∧
    Esm.extractPublicationDate docPrio = some "from-publish-date" ∧
    Esm.extractPublicationDate docTimeTrim = some "2025-06-19" ∧
    Cjs.extractPublicationDate docPubTime = some "2025-06-19" := by
  refine ⟨?_, by decide, by decide, by decide, by decide, by decide⟩
  intro doc v hv hne
  rw [Esm.extractPublicationDate, Esm.dateSelectors, Esm.datesLoop, hv]
  simp [hne]

/-- C7 witness: the first-probe conjunct applied at the
`article:published_time` document. -/
theorem claim_C7_witness :
    Esm.extractPublicationDate docPubTime = some (jsTrim "2025-06-19T10:00:00Z") :=
  claim_C7_amended.1 docPubTime "2025-06-19T10:00:00Z" (by decide) (by decide)

/-- C10: in the CommonJS copy, whenever the body-text fallback is not taken
(the container or comprehensive strategy produced the text), the extracted
text is the document title followed by a space and the strategy text, and
the emitted content therefore begins with the title — exhibited concretely
on a titled document, whose scraped content starts with the title text. -/
theorem claim_C10 :
    (∀ doc, Cjs.allTextRaw doc ≠ "" →
        ¬ (jsTrim (Cjs.allTextRaw doc)).length < 50 →
        ∃ rest, Cjs.allText doc = pageTitle doc ++ " " ++ rest) ∧
    (Cjs.scrapeContent (okEnv docTitled) articleUrl).1.content =
      Cjs.cleanContent (pageTitle docTitled ++ " " ++ t510) ∧
    strStartsWith (Cjs.scrapeContent (okEnv docTitled) articleUrl).1.content
      "EdTech Daily News" = true ∧
    docTitled.titleText = "EdTech Daily News" := by
  refine ⟨?_, by decide, by decide, by decide⟩
  intro doc h1 h2
  simp only [Cjs.allText]
  have hc : ¬((decide (Cjs.allTextRaw doc = "") ||
      decide ((jsTrim (Cjs.allTextRaw doc)).length < 50)) = true) := by
    simp only [Bool.or_eq_true, decide_eq_true_eq, not_or]
    exact ⟨by simpa using h1, h2⟩
  rw [if_neg hc]
  simp only [Cjs.allTextRaw]
  split
  · exact ⟨_, rfl⟩
  · refine ⟨String.intercalate " " (doc.headings.map jsTrim) ++ " " ++
      String.intercalate " " (doc.paragraphs.map jsTrim) ++ " " ++
      String.intercalate " " (doc.listItems.map jsTrim) ++ " " ++
      String.intercalate " " (doc.otherContent.map jsTrim), ?_⟩
    simp [String.append_assoc]

/-- C10 witness: the title-prefix conjunct applied at the titled document. -/
theorem claim_C10_witness :
    ∃ rest, Cjs.allText docTitled = pageTitle docTitled ++ " " ++ rest :=
  claim_C10.1 docTitled (by decide) (by decide)
